import Mathlib

/-!
Shallow embedding of `src/main.py` — the "Origami Thought Protocol" (OTP)
interactive chat client.

Python strings are modelled as `List Char` (`Str`): Python's `str.strip`,
`str.lower`, `int(...)` and lexicographic string comparison are re-implemented
below as structurally recursive functions on character lists, so that every
definition is executable and decidable on concrete inputs.

File I/O is modelled at the record level: the history directory is an
association list from filename to file content, where a file content is either
a well-formed persisted session record or a corrupt/unreadable file
(`json.load` failure).  `ChatHistory._save` (which writes the full record and
swallows write errors, main.py lines 105-115) becomes `saveStore`, carrying an
explicit success flag for the write.  The remote model boundary
(`client.models.generate_content`) and the upload boundary
(`client.files.upload`) are opaque, potentially failing calls; their outcomes
are inputs to the loop step (`GenOutcome`, `UploadOutcome`).
-/

/-- Python strings, modelled as lists of characters (code points). -/
abbrev Str := List Char

/-- Whitespace recognised by `str.strip` (ASCII fragment, which covers every
string the program strips). -/
def isSpaceChar (c : Char) : Bool :=
  c == ' ' || c == '\t' || c == '\n' || c == '\r'

/-- Python `s.strip()`: drop leading and trailing whitespace. -/
def trimStr (s : Str) : Str :=
  ((s.dropWhile isSpaceChar).reverse.dropWhile isSpaceChar).reverse

/-- Python `s.lower()` (ASCII fragment; the program only lower-cases command
words and single-letter menu choices). -/
def toLowerStr (s : Str) : Str :=
  s.map Char.toLower

/-- Python `s.strip("'\"")`: drop leading and trailing quote characters
(used on the `/file` path input, main.py line 355). -/
def isQuoteChar (c : Char) : Bool :=
  c == '\'' || c == '\x22'

def stripQuotes (s : Str) : Str :=
  ((s.dropWhile isQuoteChar).reverse.dropWhile isQuoteChar).reverse

/-- Lexicographic strict comparison of strings by code point, as Python's
`<` on `str` (and hence the order `sorted` uses on the path names of one
directory). -/
def strLt : Str → Str → Bool
  | [], [] => false
  | [], _ :: _ => true
  | _ :: _, [] => false
  | a :: as, b :: bs => if a < b then true else if b < a then false else strLt as bs

/-- Non-strict string comparison: `a ≤ b` iff `¬ b < a`. -/
def strLe (a b : Str) : Bool := ! strLt b a

/-- Value of a decimal digit string, `none` if empty or non-digits occur. -/
def digitsVal : Str → Option Nat
  | [] => none
  | [c] => if c.isDigit then some (c.toNat - '0'.toNat) else none
  | c :: rest =>
    if c.isDigit then
      match digitsVal rest with
      | some n => some ((c.toNat - '0'.toNat) * 10 ^ rest.length + n)
      | none => none
    else none

/-- Python `int(s)` on an already-stripped string, as an option instead of a
`ValueError`: an optional minus sign followed by decimal digits. -/
def parseIntStr : Str → Option Int
  | '-' :: rest => (digitsVal rest).map (fun n => -(n : Int))
  | s => (digitsVal s).map (fun n => (n : Int))

/-- Does `s` start with `p`?  (Python `str.startswith`, used to model the
glob pattern `chat_*.json`.) -/
def strStartsWith : Str → Str → Bool
  | _, [] => true
  | [], _ :: _ => false
  | a :: as, b :: bs => a == b && strStartsWith as bs

/-- Does `s` end with `p`? -/
def strEndsWith (s p : Str) : Bool :=
  strStartsWith s.reverse p.reverse

/-- Insert into a descending-sorted list, keeping it descending. -/
def insertDesc (x : Str) : List Str → List Str
  | [] => [x]
  | y :: ys => if strLe y x then x :: y :: ys else y :: insertDesc x ys

/-- Sort a list of strings in descending code-point order.  This embeds
Python's `sorted(paths, reverse=True)` (main.py line 129): both produce the
descending reordering of the input (file names in one directory are pairwise
distinct, so the ordering is unique). -/
def sortDesc (l : List Str) : List Str :=
  l.foldr insertDesc []

/-! ## Data model (spec §3, main.py `ChatHistory`) -/

/-- One transcript message (main.py lines 95-100). -/
structure Message where
  timestamp : Nat
  role : Str
  content : Str
  has_attachment : Bool
deriving DecidableEq

/-- Session metadata (main.py lines 88-92). -/
structure Metadata where
  created : Str
  model : Option Str
  message_count : Nat
deriving DecidableEq

/-- The on-disk persisted session record (spec §3 PersistedSessionRecord;
the dict written by `ChatHistory._save`, main.py lines 106-109). -/
structure SessionData where
  metadata : Metadata
  messages : List Message
deriving DecidableEq

/-- Content of one file in the history directory: a well-formed record, or a
file that `json.load` fails on (unreadable/corrupt). -/
inductive FileContent where
  | good (d : SessionData)
  | corrupt
deriving DecidableEq

/-- The history directory: file name to file content. -/
abbrev Store := List (Str × FileContent)

def lookupStore : Store → Str → Option FileContent
  | [], _ => none
  | (k, v) :: rest, n => if k = n then some v else lookupStore rest n

/-- Write (create or overwrite) one file. -/
def setEntry : Store → Str → FileContent → Store
  | [], n, c => [(n, c)]
  | (k, v) :: rest, n, c =>
    if k = n then (n, c) :: rest else (k, v) :: setEntry rest n c

/-- Remove one file (`Path.unlink`). -/
def delEntry : Store → Str → Store
  | [], _ => []
  | (k, v) :: rest, n => if k = n then delEntry rest n else (k, v) :: delEntry rest n

/-- In-memory session state (`ChatHistory.__init__`, main.py lines 84-92):
message list, metadata, and the session's file name.  The session identifier
and creation timestamp come from `datetime.now()`, outside the embedding; they
are parameters here. -/
structure ChatHistory where
  messages : List Message
  session_file : Str
  metadata : Metadata
deriving DecidableEq

/-- `ChatHistory.__init__` (main.py lines 84-92): empty message list, fresh
metadata with `model = None` and `message_count = 0`.  Note that `__init__`
performs no `_save`: nothing is written to the store by construction alone. -/
def ChatHistory.init (session_file created : Str) : ChatHistory :=
  { messages := [], session_file := session_file,
    metadata := { created := created, model := none, message_count := 0 } }

/-- The record `_save` writes (main.py lines 106-109). -/
def ChatHistory.saveData (h : ChatHistory) : SessionData :=
  { metadata := h.metadata, messages := h.messages }

/-- `ChatHistory._save` (main.py lines 105-115): writes the full record to the
session file; a write failure is caught and reported, leaving the store
unchanged.  `ok` is the outcome of the write. -/
def saveStore (st : Store) (h : ChatHistory) (ok : Bool) : Store :=
  if ok then setEntry st h.session_file (FileContent.good h.saveData) else st

/-- `ChatHistory.add_message` (main.py lines 94-103), in-memory part: append
the message, then set `message_count` to the new length.  (The `_save` call on
line 103 is performed by `saveStore` at every call site.) -/
def ChatHistory.add_message (h : ChatHistory) (ts : Nat) (role content : Str)
    (has_file : Bool) : ChatHistory :=
  { messages := h.messages ++ [⟨ts, role, content, has_file⟩],
    session_file := h.session_file,
    metadata := { created := h.metadata.created, model := h.metadata.model,
                  message_count := (h.messages ++ [(⟨ts, role, content, has_file⟩ : Message)]).length } }

/-- `ChatHistory.set_model` (main.py lines 117-119), in-memory part. -/
def ChatHistory.set_model (h : ChatHistory) (m : Str) : ChatHistory :=
  { messages := h.messages, session_file := h.session_file,
    metadata := { created := h.metadata.created, model := some m,
                  message_count := h.metadata.message_count } }

/-- The spec's `create(model)` (§4.1) as the code realises it: a fresh
`ChatHistory()` immediately followed by `set_model(model)` (main.py lines
414-415), whose `_save` persists the initial record.  `saveOk` is the
outcome of that first write. -/
def ChatHistory.create (st : Store) (session_file created m : Str)
    (saveOk : Bool) : Store × ChatHistory :=
  (saveStore st ((ChatHistory.init session_file created).set_model m) saveOk,
   (ChatHistory.init session_file created).set_model m)

/-- Does a file name match the glob `chat_*.json`? -/
def isChatJson (n : Str) : Bool :=
  strStartsWith n "chat_".toList && strEndsWith n ".json".toList

/-- `ChatHistory.list_sessions` (main.py lines 124-130):
`sorted(HISTORY_DIR.glob("chat_*.json"), reverse=True)` — every matching file
name, newest (largest) first. -/
def ChatHistory.list_sessions (st : Store) : List Str :=
  sortDesc ((st.map Prod.fst).filter isChatJson)

/-- `ChatHistory.load_session` (main.py lines 132-139): parse the file;
on any failure print an error and return `None`. -/
def ChatHistory.load_session (st : Store) (p : Str) : Option SessionData :=
  match lookupStore st p with
  | some (FileContent.good d) => some d
  | _ => none

/-- `ChatHistory.delete_session` (main.py lines 141-148): unlink the file.
(The `False`/error return path is not reachable in this store model, where
removal of a name always succeeds.) -/
def ChatHistory.delete_session (st : Store) (p : Str) : Store :=
  delEntry st p

/-- The session-summary line printed for one record by `view_history`
(main.py lines 165-169).  The 16-character truncation of `created` there is
display formatting only and is not modelled. -/
structure SessionSummary where
  created : Str
  model : Option Str
  message_count : Nat
deriving DecidableEq

def sessionSummary (d : SessionData) : SessionSummary :=
  ⟨d.metadata.created, d.metadata.model, d.metadata.message_count⟩

/-- The sequence of summary lines `view_history` prints (main.py lines
162-169): the ten most recent sessions, where a file whose load fails is
skipped (`if data:`) — logged by `load_session`, not fatal to the listing. -/
def view_history_listing (st : Store) : List SessionSummary :=
  ((ChatHistory.list_sessions st).take 10).foldr
    (fun p acc =>
      match ChatHistory.load_session st p with
      | some d => sessionSummary d :: acc
      | none => acc) []

/-- Store effect of one `view_history` invocation (main.py lines 151-208).
`choice`, `deleteIdx`, `confirmDel`, `confirmAll` are the user's inputs at the
successive prompts.  Viewing a session (`display_session`) is read-only;
only the `d` (delete one, with y/N confirmation) and `c` (delete all, with
confirmation) branches mutate the directory. -/
def view_history (st : Store) (choice deleteIdx confirmDel confirmAll : Str) : Store :=
  let sessions := ChatHistory.list_sessions st
  if sessions.isEmpty then st
  else
    let c := toLowerStr (trimStr choice)
    if c = "0".toList ∨ c = [] then st
    else if c = "d".toList then
      match parseIntStr (trimStr deleteIdx) with
      | some n =>
        if 0 ≤ n - 1 ∧ n - 1 < (sessions.length : Int) then
          if toLowerStr (trimStr confirmDel) = "y".toList then
            ChatHistory.delete_session st (sessions.getD (n - 1).toNat [])
          else st
        else st
      | none => st
    else if c = "c".toList then
      if toLowerStr (trimStr confirmAll) = "y".toList then
        sessions.foldl ChatHistory.delete_session st
      else st
    else st

/-! ## Model selection, file selection, commands (main.py lines 312-402) -/

def MODELS : List Str :=
  ["gemini-3-pro-preview".toList, "gemini-2.5-pro".toList,
   "gemini-2.5-flash".toList, "gemini-2.5-flash-lite".toList,
   "gemini-2.0-flash".toList, "gemini-2.0-flash-lite".toList]

/-- `select_model` (main.py lines 312-332): a 1-based index into `MODELS`,
defaulting to the first model on empty, invalid or out-of-range input. -/
def select_model (choice : Str) : Str :=
  let c := trimStr choice
  if c = [] then MODELS.getD 0 []
  else
    match parseIntStr c with
    | some n =>
      if 0 ≤ n - 1 ∧ n - 1 < (MODELS.length : Int) then MODELS.getD (n - 1).toNat []
      else MODELS.getD 0 []
    | none => MODELS.getD 0 []

/-- `get_mime_type` (main.py lines 335-345): extension to MIME type, with
`application/octet-stream` for anything unrecognised. -/
def get_mime_type (suffix : Str) : Str :=
  let s := toLowerStr suffix
  if s = ".jpg".toList ∨ s = ".jpeg".toList then "image/jpeg".toList
  else if s = ".png".toList then "image/png".toList
  else if s = ".gif".toList then "image/gif".toList
  else if s = ".webp".toList then "image/webp".toList
  else if s = ".mp4".toList then "video/mp4".toList
  else if s = ".mpeg".toList then "video/mpeg".toList
  else if s = ".mov".toList then "video/quicktime".toList
  else if s = ".avi".toList then "video/x-msvideo".toList
  else if s = ".webm".toList then "video/webm".toList
  else if s = ".mp3".toList then "audio/mp3".toList
  else if s = ".wav".toList then "audio/wav".toList
  else if s = ".aiff".toList then "audio/aiff".toList
  else if s = ".aac".toList then "audio/aac".toList
  else if s = ".ogg".toList then "audio/ogg".toList
  else if s = ".flac".toList then "audio/flac".toList
  else "application/octet-stream".toList

/-- `select_file` (main.py lines 348-379).  `pathInput` is the raw prompt
input; `fExists`, `fIsFile`, `suffix` and `fileName` are the relevant
filesystem facts about the named path (`path.exists()`, `path.is_file()`,
`path.suffix`, `path.name`); `contConfirm` answers the unknown-type prompt.
Returns the `(name, mime_type)` pair on success, `none` when the command
aborts back to the prompt. -/
def select_file (pathInput : Str) (fExists fIsFile : Bool)
    (suffix fileName contConfirm : Str) : Option (Str × Str) :=
  let file_path := stripQuotes (trimStr pathInput)
  if file_path = [] then none
  else if fExists = false then none
  else if fIsFile = false then none
  else
    let mime := get_mime_type suffix
    if mime = "application/octet-stream".toList ∧
        toLowerStr (trimStr contConfirm) ≠ "y".toList then none
    else some (fileName, mime)

/-- The seven recognised commands (main.py lines 431-466). -/
def COMMANDS : List Str :=
  ["/quit".toList, "/clear".toList, "/help".toList, "/model".toList,
   "/history".toList, "/export".toList, "/file".toList]

/-! ## The chat loop (main.py `chat_loop`, lines 405-500) -/

/-- Outcome of the model-boundary call for one send: the reply text, an
exception (caught by the `except Exception` handler, lines 498-500), or a
`KeyboardInterrupt` (caught at lines 495-496, which only prints an advisory
message). -/
inductive GenOutcome where
  | ok (text : Str)
  | err (msg : Str)
  | interrupt
deriving DecidableEq

/-- Outcome of `client.files.upload` (main.py lines 382-391): an opaque
uploaded-file handle, or an exception caught by the loop's handler. -/
inductive UploadOutcome where
  | ok (handle : Str)
  | err (msg : Str)
deriving DecidableEq

/-- External inputs and outcomes consumed by one loop iteration: message
timestamps from `datetime.now()`, the success of each `_save` disk write
(first and second write of the iteration), the answers to each sub-prompt,
and the boundary-call outcomes. -/
structure Env where
  tsA : Nat
  tsB : Nat
  saveOkA : Bool
  saveOkB : Bool
  modelChoice : Str
  histChoice : Str
  histDeleteIdx : Str
  histConfirmDel : Str
  histConfirmAll : Str
  filePathInput : Str
  fileExists : Bool
  fileIsFile : Bool
  fileSuffix : Str
  fileName : Str
  fileContConfirm : Str
  uploadResult : UploadOutcome
  genResult : GenOutcome
deriving DecidableEq

/-- State of `chat_loop` between iterations: the history directory, the
in-memory session, the staged attachment (`attached_file`,
`attached_file_name`, main.py lines 417-418) and the selected model. -/
structure LoopState where
  store : Store
  hist : ChatHistory
  attached_file : Option Str
  attached_file_name : Option Str
  model : Str
deriving DecidableEq

/-- The outbound payload assembled for a plain send (main.py lines 468-471):
the staged attachment handle, if any, followed by the message text. -/
def outboundContents (s : LoopState) (user_input : Str) : List Str :=
  (match s.attached_file with
   | some f => [f]
   | none => []) ++ [user_input]

/-- A plain (non-command) send, main.py lines 468-500 including the
exception handlers: append the user message (truthful `has_file`) and save;
call the model; on success append the assistant reply, save, and clear the
staged attachment; on an exception append a `system` error message and save
(the attachment is left untouched); on a `KeyboardInterrupt` nothing further
happens. -/
def sendMessage (s : LoopState) (user_input : Str) (e : Env) : LoopState :=
  let h1 := s.hist.add_message e.tsA "user".toList user_input s.attached_file.isSome
  let st1 := saveStore s.store h1 e.saveOkA
  match e.genResult with
  | GenOutcome.ok text =>
    let h2 := h1.add_message e.tsB "assistant".toList text false
    let st2 := saveStore st1 h2 e.saveOkB
    if s.attached_file.isSome then
      { store := st2, hist := h2, attached_file := none,
        attached_file_name := none, model := s.model }
    else
      { store := st2, hist := h2, attached_file := s.attached_file,
        attached_file_name := s.attached_file_name, model := s.model }
  | GenOutcome.err msg =>
    let h2 := h1.add_message e.tsB "system".toList
      ("Error: ".toList ++ msg) false
    { store := saveStore st1 h2 e.saveOkB, hist := h2,
      attached_file := s.attached_file,
      attached_file_name := s.attached_file_name, model := s.model }
  | GenOutcome.interrupt =>
    { store := st1, hist := h1, attached_file := s.attached_file,
      attached_file_name := s.attached_file_name, model := s.model }

/-- One iteration of `chat_loop` (main.py lines 420-500) on input line
`rawInput`: strip, skip if empty, lower-case only for command matching,
dispatch the seven commands, otherwise send the stripped text as a message.
`/quit` (which breaks the loop), `/clear`, `/help` and `/export` do not change
the loop state (`/export` writes an export artifact outside the history
directory). -/
def step (s : LoopState) (rawInput : Str) (e : Env) : LoopState :=
  let user_input := trimStr rawInput
  if user_input = [] then s
  else
    let cmd := toLowerStr user_input
    if cmd = "/quit".toList then s
    else if cmd = "/clear".toList then s
    else if cmd = "/help".toList then s
    else if cmd = "/model".toList then
      let m := select_model e.modelChoice
      let h := s.hist.set_model m
      { store := saveStore s.store h e.saveOkA, hist := h,
        attached_file := s.attached_file,
        attached_file_name := s.attached_file_name, model := m }
    else if cmd = "/history".toList then
      { store := view_history s.store e.histChoice e.histDeleteIdx
          e.histConfirmDel e.histConfirmAll,
        hist := s.hist, attached_file := s.attached_file,
        attached_file_name := s.attached_file_name, model := s.model }
    else if cmd = "/export".toList then s
    else if cmd = "/file".toList then
      match select_file e.filePathInput e.fileExists e.fileIsFile
          e.fileSuffix e.fileName e.fileContConfirm with
      | none => s
      | some (name, _mime) =>
        match e.uploadResult with
        | UploadOutcome.ok handle =>
          { store := s.store, hist := s.hist, attached_file := some handle,
            attached_file_name := some name, model := s.model }
        | UploadOutcome.err msg =>
          let h := s.hist.add_message e.tsB "system".toList
            ("Error: ".toList ++ msg) false
          { store := saveStore s.store h e.saveOkB, hist := h,
            attached_file := s.attached_file,
            attached_file_name := s.attached_file_name, model := s.model }
    else sendMessage s user_input e

/-- Run the loop over a list of input lines with their environments,
stopping (state unchanged) at the first `/quit`. -/
def runLoop (s : LoopState) : List (Str × Env) → LoopState
  | [] => s
  | (i, e) :: rest =>
    if toLowerStr (trimStr i) = "/quit".toList then s
    else runLoop (step s i e) rest

/-- The loop state on entry to `chat_loop`'s while loop (main.py lines
414-418): a freshly created session (create = `__init__` + `set_model`,
with `saveOk` the outcome of that initial write), no staged attachment. -/
def initLoopState (store0 : Store) (session_file created m : Str)
    (saveOk : Bool) : LoopState :=
  { store := (ChatHistory.create store0 session_file created m saveOk).1,
    hist := (ChatHistory.create store0 session_file created m saveOk).2,
    attached_file := none, attached_file_name := none, model := m }

/-- Specification of one append: timestamp, role, content, attachment flag. -/
abbrev MsgSpec := Nat × Str × Str × Bool

def mkMessage (x : MsgSpec) : Message :=
  ⟨x.1, x.2.1, x.2.2.1, x.2.2.2⟩

/-- A sequence of `add_message` + `_save` calls, each write succeeding
(for the round-trip property on the Transcript Store alone). -/
def appendRun : Store × ChatHistory → List MsgSpec → Store × ChatHistory
  | p, [] => p
  | (st, h), x :: rest =>
    appendRun (saveStore st (h.add_message x.1 x.2.1 x.2.2.1 x.2.2.2) true,
               h.add_message x.1 x.2.1 x.2.2.1 x.2.2.2) rest

/-! ## Order facts about `strLt` / `strLe` -/

theorem strLt_irrefl (a : Str) : strLt a a = false := by
  induction a with
  | nil => rfl
  | cons x xs ih => simp [strLt, lt_self_iff_false, ih]

theorem strLt_asymm : ∀ {a b : Str}, strLt a b = true → strLt b a = false
  | [], [], h => by simp [strLt] at h
  | [], _ :: _, _ => rfl
  | _ :: _, [], h => by simp [strLt] at h
  | x :: xs, y :: ys, h => by
    simp only [strLt] at h ⊢
    by_cases hxy : x < y
    · have hyx : ¬ y < x := fun hc => absurd (lt_trans hxy hc) (lt_irrefl x)
      simp [hyx, hxy]
    · by_cases hyx : y < x
      · simp [hxy, hyx] at h
      · simp only [if_neg hxy, if_neg hyx] at h ⊢
        exact strLt_asymm h

theorem strLt_eq_of_not : ∀ {a b : Str}, strLt a b = false → strLt b a = false → a = b
  | [], [], _, _ => rfl
  | [], _ :: _, h1, _ => by simp [strLt] at h1
  | _ :: _, [], _, h2 => by simp [strLt] at h2
  | x :: xs, y :: ys, h1, h2 => by
    simp only [strLt] at h1 h2
    by_cases hxy : x < y
    · simp [hxy] at h1
    · by_cases hyx : y < x
      · simp [hyx] at h2
      · have hx : x = y := le_antisymm (not_lt.mp hyx) (not_lt.mp hxy)
        simp only [if_neg hxy, if_neg hyx] at h1 h2
        rw [hx, strLt_eq_of_not h1 h2]

theorem strLt_trans : ∀ {a b c : Str},
    strLt a b = true → strLt b c = true → strLt a c = true
  | [], [], _, h1, _ => by simp [strLt] at h1
  | [], _ :: _, [], _, h2 => by simp [strLt] at h2
  | [], _ :: _, _ :: _, _, _ => rfl
  | _ :: _, [], _, h1, _ => by simp [strLt] at h1
  | _ :: _, _ :: _, [], _, h2 => by simp [strLt] at h2
  | x :: xs, y :: ys, z :: zs, h1, h2 => by
    simp only [strLt] at h1 h2 ⊢
    by_cases hxy : x < y
    · by_cases hyz : y < z
      · simp [lt_trans hxy hyz]
      · by_cases hzy : z < y
        · simp [hyz, hzy] at h2
        · have hyzeq : y = z := le_antisymm (not_lt.mp hzy) (not_lt.mp hyz)
          simp [hyzeq ▸ hxy]
    · by_cases hyx : y < x
      · simp [hxy, hyx] at h1
      · have hxyeq : x = y := le_antisymm (not_lt.mp hyx) (not_lt.mp hxy)
        simp only [if_neg hxy, if_neg hyx] at h1
        by_cases hyz : y < z
        · simp [hxyeq ▸ hyz]
        · by_cases hzy : z < y
          · simp [hyz, hzy] at h2
          · have hyzeq : y = z := le_antisymm (not_lt.mp hzy) (not_lt.mp hyz)
            simp only [if_neg hyz, if_neg hzy] at h2
            have hxz : ¬ x < z := hxyeq ▸ hyzeq ▸ not_lt.mpr le_rfl
            have hzx : ¬ z < x := hxyeq ▸ hyzeq ▸ not_lt.mpr le_rfl
            simp only [if_neg hxz, if_neg hzx]
            exact strLt_trans h1 h2

theorem strLe_iff {a b : Str} : strLe a b = true ↔ strLt b a = false := by
  simp [strLe]

theorem strLe_trans {a b c : Str} (h1 : strLe a b = true) (h2 : strLe b c = true) :
    strLe a c = true := by
  rw [strLe_iff] at h1 h2 ⊢
  cases hca : strLt c a with
  | false => rfl
  | true =>
    cases hab : strLt a b with
    | false =>
      rw [strLt_eq_of_not hab h1] at hca
      rw [h2] at hca
      exact hca.symm
    | true =>
      have := strLt_trans hca hab
      rw [h2] at this
      exact this.symm

theorem strLe_of_not_strLe {a b : Str} (h : strLe a b = false) : strLe b a = true := by
  rw [strLe_iff]
  have hlt : strLt b a = true := by
    cases hv : strLt b a with
    | false => rw [strLe, hv] at h; exact absurd h (by simp)
    | true => rfl
  exact strLt_asymm hlt

/-! ## Sortedness and membership for `sortDesc` -/

theorem mem_insertDesc {z x : Str} : ∀ {l : List Str},
    (z ∈ insertDesc x l ↔ z = x ∨ z ∈ l)
  | [] => by simp [insertDesc]
  | y :: ys => by
    simp only [insertDesc]
    split
    · simp
    · simp only [List.mem_cons, mem_insertDesc (l := ys)]
      tauto

theorem sorted_insertDesc {x : Str} : ∀ {l : List Str},
    l.Pairwise (fun a b => strLe b a = true) →
    (insertDesc x l).Pairwise (fun a b => strLe b a = true)
  | [], _ => by simp [insertDesc]
  | y :: ys, h => by
    rcases List.pairwise_cons.mp h with ⟨hy, hys⟩
    simp only [insertDesc]
    split
    case isTrue hle =>
      refine List.pairwise_cons.mpr ⟨?_, h⟩
      intro a ha
      rcases List.mem_cons.mp ha with rfl | ha
      · exact hle
      · exact strLe_trans (hy a ha) hle
    case isFalse hle =>
      refine List.pairwise_cons.mpr ⟨?_, sorted_insertDesc hys⟩
      intro a ha
      rcases mem_insertDesc.mp ha with rfl | ha
      · exact strLe_of_not_strLe (Bool.not_eq_true _ ▸ hle)
      · exact hy a ha

theorem sorted_sortDesc (l : List Str) :
    (sortDesc l).Pairwise (fun a b => strLe b a = true) := by
  induction l with
  | nil => simp [sortDesc]
  | cons x xs ih => exact sorted_insertDesc ih

theorem mem_sortDesc {z : Str} {l : List Str} : z ∈ sortDesc l ↔ z ∈ l := by
  induction l with
  | nil => simp [sortDesc]
  | cons x xs ih =>
    simp only [sortDesc, List.foldr_cons, List.mem_cons]
    rw [mem_insertDesc]
    exact or_congr Iff.rfl ih

/-! ## Store lookup lemmas -/

theorem lookup_setEntry (st : Store) (n : Str) (c : FileContent) (k : Str) :
    lookupStore (setEntry st n c) k = if n = k then some c else lookupStore st k := by
  induction st with
  | nil => simp [setEntry, lookupStore]
  | cons p rest ih =>
    obtain ⟨a, b⟩ := p
    by_cases han : a = n
    · subst han
      simp only [setEntry, if_pos rfl, lookupStore]
      by_cases hak : a = k
      · simp [hak]
      · simp [hak]
    · simp only [setEntry, if_neg han, lookupStore, ih]
      by_cases hak : a = k
      · subst hak
        have hnk : ¬ n = a := fun h => han h.symm
        simp [hnk]
      · simp [hak]

theorem lookup_delEntry (st : Store) (n k : Str) :
    lookupStore (delEntry st n) k = if k = n then none else lookupStore st k := by
  induction st with
  | nil => simp [delEntry, lookupStore]
  | cons p rest ih =>
    obtain ⟨a, b⟩ := p
    by_cases han : a = n
    · subst han
      simp only [delEntry, eq_self_iff_true, if_true]
      rw [ih]
      by_cases hka : k = a
      · simp [hka]
      · have hak : ¬ a = k := fun h => hka h.symm
        simp [lookupStore, hka, hak]
    · simp only [delEntry, if_neg han, lookupStore]
      by_cases hak : a = k
      · subst hak
        have hkn : ¬ a = n := han
        simp [lookupStore, hkn, ih]
      · simp [lookupStore, hak, ih]

theorem lookup_del_or (st : Store) (p k : Str) :
    lookupStore (ChatHistory.delete_session st p) k = none ∨
    lookupStore (ChatHistory.delete_session st p) k = lookupStore st k := by
  unfold ChatHistory.delete_session
  rw [lookup_delEntry]
  by_cases hk : k = p
  · exact Or.inl (if_pos hk)
  · exact Or.inr (if_neg hk)

theorem lookup_foldl_del (names : List Str) (st : Store) (k : Str) :
    lookupStore (names.foldl ChatHistory.delete_session st) k = none ∨
    lookupStore (names.foldl ChatHistory.delete_session st) k = lookupStore st k := by
  induction names generalizing st with
  | nil => exact Or.inr rfl
  | cons n ns ih =>
    simp only [List.foldl_cons]
    rcases ih (ChatHistory.delete_session st n) with h | h
    · exact Or.inl h
    · rw [h]
      exact lookup_del_or st n k

/-- A `view_history` invocation can only delete files: any file either keeps
its content or disappears. -/
theorem view_history_lookup (st : Store) (ch di cd ca k : Str) :
    lookupStore (view_history st ch di cd ca) k = none ∨
    lookupStore (view_history st ch di cd ca) k = lookupStore st k := by
  simp only [view_history]
  repeat' split
  all_goals first
    | exact Or.inr rfl
    | exact lookup_del_or _ _ _
    | exact lookup_foldl_del _ _ _

/-! ## Lexicographic comparison under a common affix -/

theorem strLt_append_left (p : Str) : ∀ (a b : Str),
    strLt (p ++ a) (p ++ b) = strLt a b := by
  induction p with
  | nil => intro a b; rfl
  | cons x xs ih => intro a b; simp [strLt, lt_irrefl, ih]

theorem strLt_append_right : ∀ (a b s : Str), a.length = b.length →
    strLt (a ++ s) (b ++ s) = strLt a b
  | [], [], s, _ => by simp [strLt_irrefl, strLt]
  | [], _ :: _, _, h => by simp at h
  | _ :: _, [], _, h => by simp at h
  | x :: xs, y :: ys, s, h => by
    have hl : xs.length = ys.length := by simpa using h
    simp only [List.cons_append, strLt]
    by_cases hxy : x < y
    · simp [hxy]
    · by_cases hyx : y < x
      · simp [hxy, hyx]
      · simp [hxy, hyx, strLt_append_right xs ys s hl]

/-- The name of a session file for a given filename-encoded timestamp
(`f"chat_{self.session_id}.json"`, main.py line 87). -/
def chatFileName (ts : Str) : Str :=
  "chat_".toList ++ ts ++ ".json".toList

/-- For fixed-width timestamps (as produced by `%Y%m%d_%H%M%S`), comparing
chat file names agrees with comparing the encoded timestamps. -/
theorem chatFileName_lt (t1 t2 : Str) (h : t1.length = t2.length) :
    strLt (chatFileName t1) (chatFileName t2) = strLt t1 t2 := by
  unfold chatFileName
  rw [strLt_append_right _ _ _ (by simp [h]), strLt_append_left]

/-! ## Structural lemmas about `step` and `sendMessage` -/

theorem step_empty (s : LoopState) (i : Str) (e : Env) (h : trimStr i = []) :
    step s i e = s := by
  simp [step, h]

theorem step_plain (s : LoopState) (i : Str) (e : Env)
    (h1 : trimStr i ≠ [])
    (h2 : toLowerStr (trimStr i) ∉ COMMANDS) :
    step s i e = sendMessage s (trimStr i) e := by
  have c1 : toLowerStr (trimStr i) ≠ "/quit".toList :=
    fun h => h2 (by rw [h]; simp [COMMANDS])
  have c2 : toLowerStr (trimStr i) ≠ "/clear".toList :=
    fun h => h2 (by rw [h]; simp [COMMANDS])
  have c3 : toLowerStr (trimStr i) ≠ "/help".toList :=
    fun h => h2 (by rw [h]; simp [COMMANDS])
  have c4 : toLowerStr (trimStr i) ≠ "/model".toList :=
    fun h => h2 (by rw [h]; simp [COMMANDS])
  have c5 : toLowerStr (trimStr i) ≠ "/history".toList :=
    fun h => h2 (by rw [h]; simp [COMMANDS])
  have c6 : toLowerStr (trimStr i) ≠ "/export".toList :=
    fun h => h2 (by rw [h]; simp [COMMANDS])
  have c7 : toLowerStr (trimStr i) ≠ "/file".toList :=
    fun h => h2 (by rw [h]; simp [COMMANDS])
  simp only [step]
  rw [if_neg h1, if_neg c1, if_neg c2, if_neg c3, if_neg c4, if_neg c5,
    if_neg c6, if_neg c7]

/-- Case analysis on the possible results of one loop iteration. -/
theorem step_cases (s : LoopState) (i : Str) (e : Env) (P : LoopState → Prop)
    (hid : P s)
    (hmodel : ∀ m,
      P { store := saveStore s.store (s.hist.set_model m) e.saveOkA,
          hist := s.hist.set_model m, attached_file := s.attached_file,
          attached_file_name := s.attached_file_name, model := m })
    (hhist : toLowerStr (trimStr i) = "/history".toList →
      P { store := view_history s.store e.histChoice e.histDeleteIdx
            e.histConfirmDel e.histConfirmAll,
          hist := s.hist, attached_file := s.attached_file,
          attached_file_name := s.attached_file_name, model := s.model })
    (hstage : ∀ handle name,
      P { store := s.store, hist := s.hist,
          attached_file := some handle, attached_file_name := some name,
          model := s.model })
    (hupErr : ∀ msg,
      P { store := saveStore s.store (s.hist.add_message e.tsB "system".toList
            ("Error: ".toList ++ msg) false) e.saveOkB,
          hist := s.hist.add_message e.tsB "system".toList
            ("Error: ".toList ++ msg) false,
          attached_file := s.attached_file,
          attached_file_name := s.attached_file_name, model := s.model })
    (hsend : trimStr i ≠ [] → toLowerStr (trimStr i) ∉ COMMANDS →
      P (sendMessage s (trimStr i) e)) :
    P (step s i e) := by
  by_cases h0 : trimStr i = []
  · rw [step_empty s i e h0]; exact hid
  by_cases hcmd : toLowerStr (trimStr i) ∈ COMMANDS
  · simp only [step]
    rw [if_neg h0]
    by_cases c1 : toLowerStr (trimStr i) = "/quit".toList
    · rw [if_pos c1]; exact hid
    rw [if_neg c1]
    by_cases c2 : toLowerStr (trimStr i) = "/clear".toList
    · rw [if_pos c2]; exact hid
    rw [if_neg c2]
    by_cases c3 : toLowerStr (trimStr i) = "/help".toList
    · rw [if_pos c3]; exact hid
    rw [if_neg c3]
    by_cases c4 : toLowerStr (trimStr i) = "/model".toList
    · rw [if_pos c4]; exact hmodel _
    rw [if_neg c4]
    by_cases c5 : toLowerStr (trimStr i) = "/history".toList
    · rw [if_pos c5]; exact hhist c5
    rw [if_neg c5]
    by_cases c6 : toLowerStr (trimStr i) = "/export".toList
    · rw [if_pos c6]; exact hid
    rw [if_neg c6]
    by_cases c7 : toLowerStr (trimStr i) = "/file".toList
    · rw [if_pos c7]
      cases hsel : select_file e.filePathInput e.fileExists e.fileIsFile
          e.fileSuffix e.fileName e.fileContConfirm with
      | none => exact hid
      | some pr =>
        obtain ⟨name, mime⟩ := pr
        cases hup : e.uploadResult with
        | ok handle => exact hstage handle name
        | err msg => exact hupErr msg
    · exfalso
      simp only [COMMANDS, List.mem_cons, List.not_mem_nil, or_false] at hcmd
      rcases hcmd with h | h | h | h | h | h | h
      · exact c1 h
      · exact c2 h
      · exact c3 h
      · exact c4 h
      · exact c5 h
      · exact c6 h
      · exact c7 h
  · rw [step_plain s i e h0 hcmd]
    exact hsend h0 hcmd

theorem sendMessage_messages (s : LoopState) (u : Str) (e : Env) :
    (sendMessage s u e).hist.messages =
      s.hist.messages ++
        Message.mk e.tsA "user".toList u s.attached_file.isSome ::
        (match e.genResult with
         | GenOutcome.ok t => [Message.mk e.tsB "assistant".toList t false]
         | GenOutcome.err m =>
            [Message.mk e.tsB "system".toList ("Error: ".toList ++ m) false]
         | GenOutcome.interrupt => []) := by
  cases hg : e.genResult with
  | ok t =>
    by_cases ha : s.attached_file.isSome <;>
      simp [sendMessage, ChatHistory.add_message, hg, ha]
  | err m => simp [sendMessage, ChatHistory.add_message, hg]
  | interrupt => simp [sendMessage, ChatHistory.add_message, hg]

theorem sendMessage_attached (s : LoopState) (u : Str) (e : Env) :
    (sendMessage s u e).attached_file =
      match e.genResult with
      | GenOutcome.ok _ => none
      | GenOutcome.err _ => s.attached_file
      | GenOutcome.interrupt => s.attached_file := by
  cases hg : e.genResult with
  | ok t =>
    cases haf : s.attached_file <;> simp [sendMessage, hg, haf]
  | err m => simp [sendMessage, hg]
  | interrupt => simp [sendMessage, hg]

theorem lookup_saveStore_self (st : Store) (h : ChatHistory) :
    lookupStore (saveStore st h true) h.session_file =
      some (FileContent.good h.saveData) := by
  rw [saveStore, if_pos rfl, lookup_setEntry, if_pos rfl]

theorem sendMessage_session_file (s : LoopState) (u : Str) (e : Env) :
    (sendMessage s u e).hist.session_file = s.hist.session_file := by
  cases hg : e.genResult with
  | ok t =>
    by_cases ha : s.attached_file.isSome <;>
      simp [sendMessage, ChatHistory.add_message, hg, ha]
  | err m => simp [sendMessage, ChatHistory.add_message, hg]
  | interrupt => simp [sendMessage, ChatHistory.add_message, hg]

theorem step_session_file (s : LoopState) (i : Str) (e : Env) :
    (step s i e).hist.session_file = s.hist.session_file := by
  refine step_cases s i e
    (fun s2 => s2.hist.session_file = s.hist.session_file) rfl ?_ ?_ ?_ ?_ ?_
  · intro _; rfl
  · intro _; rfl
  · intro _ _; rfl
  · intro _; rfl
  · intro _ _; exact sendMessage_session_file s (trimStr i) e

theorem runLoop_session_file (trace : List (Str × Env)) (s : LoopState) :
    (runLoop s trace).hist.session_file = s.hist.session_file := by
  induction trace generalizing s with
  | nil => rfl
  | cons p rest ih =>
    obtain ⟨i, e⟩ := p
    simp only [runLoop]
    split
    · rfl
    · rw [ih (step s i e), step_session_file]

/-! ## The count invariant (spec §3: `message_count == len(messages)`) -/

/-- The in-memory count matches the message list, and every well-formed
record stored under the session's file name satisfies the count invariant. -/
def countInvP (st : Store) (h : ChatHistory) : Prop :=
  h.metadata.message_count = h.messages.length ∧
  ∀ d, lookupStore st h.session_file = some (FileContent.good d) →
    d.metadata.message_count = d.messages.length

theorem countInvP_save (st : Store) (h h' : ChatHistory) (ok : Bool)
    (hf : h'.session_file = h.session_file)
    (hc : h'.metadata.message_count = h'.messages.length)
    (hinv : countInvP st h) :
    countInvP (saveStore st h' ok) h' := by
  refine ⟨hc, fun d hd => ?_⟩
  cases ok with
  | false =>
    rw [saveStore, if_neg (by simp)] at hd
    rw [hf] at hd
    exact hinv.2 d hd
  | true =>
    rw [saveStore, if_pos rfl, lookup_setEntry, if_pos rfl] at hd
    injection hd with hd1
    injection hd1 with hd2
    rw [← hd2]
    exact hc

theorem sendMessage_countInv (s : LoopState) (u : Str) (e : Env)
    (hinv : countInvP s.store s.hist) :
    countInvP (sendMessage s u e).store (sendMessage s u e).hist := by
  have h1 : countInvP
      (saveStore s.store
        (s.hist.add_message e.tsA "user".toList u s.attached_file.isSome) e.saveOkA)
      (s.hist.add_message e.tsA "user".toList u s.attached_file.isSome) :=
    countInvP_save s.store s.hist _ e.saveOkA rfl rfl hinv
  cases hg : e.genResult with
  | ok t =>
    have h2 := countInvP_save _
      (s.hist.add_message e.tsA "user".toList u s.attached_file.isSome)
      ((s.hist.add_message e.tsA "user".toList u
          s.attached_file.isSome).add_message e.tsB "assistant".toList t false)
      e.saveOkB rfl rfl h1
    simp only [sendMessage, hg]
    split <;> exact h2
  | err m =>
    have h2 := countInvP_save _
      (s.hist.add_message e.tsA "user".toList u s.attached_file.isSome)
      ((s.hist.add_message e.tsA "user".toList u
          s.attached_file.isSome).add_message e.tsB "system".toList
            ("Error: ".toList ++ m) false)
      e.saveOkB rfl rfl h1
    simp only [sendMessage, hg]
    exact h2
  | interrupt =>
    simp only [sendMessage, hg]
    exact h1

theorem step_countInv (s : LoopState) (i : Str) (e : Env)
    (hinv : countInvP s.store s.hist) :
    countInvP (step s i e).store (step s i e).hist := by
  refine step_cases s i e (fun s2 => countInvP s2.store s2.hist) hinv ?_ ?_ ?_ ?_ ?_
  · intro m
    exact countInvP_save s.store s.hist (s.hist.set_model m) e.saveOkA rfl hinv.1 hinv
  · intro _
    refine ⟨hinv.1, fun d hd => ?_⟩
    rcases view_history_lookup s.store e.histChoice e.histDeleteIdx
        e.histConfirmDel e.histConfirmAll s.hist.session_file with h | h
    · rw [h] at hd; exact absurd hd (by simp)
    · rw [h] at hd; exact hinv.2 d hd
  · intro _ _; exact hinv
  · intro msg
    exact countInvP_save s.store s.hist _ e.saveOkB rfl rfl hinv
  · intro _ _
    exact sendMessage_countInv s (trimStr i) e hinv

theorem runLoop_countInv (trace : List (Str × Env)) (s : LoopState)
    (hinv : countInvP s.store s.hist) :
    countInvP (runLoop s trace).store (runLoop s trace).hist := by
  induction trace generalizing s with
  | nil => exact hinv
  | cons p rest ih =>
    obtain ⟨i, e⟩ := p
    simp only [runLoop]
    split
    · exact hinv
    · exact ih (step s i e) (step_countInv s i e hinv)

/-! ## The write-through invariant (spec §3: persisted on every mutation) -/

/-- The stored record under the session's file name is exactly the current
in-memory record. -/
def persistInvP (st : Store) (h : ChatHistory) : Prop :=
  lookupStore st h.session_file = some (FileContent.good h.saveData)

theorem sendMessage_persistInv (s : LoopState) (u : Str) (e : Env)
    (hA : e.saveOkA = true) (hB : e.saveOkB = true) :
    persistInvP (sendMessage s u e).store (sendMessage s u e).hist := by
  cases hg : e.genResult with
  | ok t =>
    simp only [sendMessage, hg]
    split <;> (rw [hB]; exact lookup_saveStore_self _ _)
  | err m =>
    simp only [sendMessage, hg]
    rw [hB]
    exact lookup_saveStore_self _ _
  | interrupt =>
    simp only [sendMessage, hg]
    rw [hA]
    exact lookup_saveStore_self _ _

theorem step_persistInv (s : LoopState) (i : Str) (e : Env)
    (hnh : toLowerStr (trimStr i) ≠ "/history".toList)
    (hA : e.saveOkA = true) (hB : e.saveOkB = true)
    (hinv : persistInvP s.store s.hist) :
    persistInvP (step s i e).store (step s i e).hist := by
  refine step_cases s i e (fun s2 => persistInvP s2.store s2.hist) hinv ?_ ?_ ?_ ?_ ?_
  · intro m
    show persistInvP (saveStore s.store (s.hist.set_model m) e.saveOkA)
      (s.hist.set_model m)
    rw [hA]
    exact lookup_saveStore_self _ _
  · intro hc; exact absurd hc hnh
  · intro _ _; exact hinv
  · intro msg
    show persistInvP (saveStore s.store _ e.saveOkB) _
    rw [hB]
    exact lookup_saveStore_self _ _
  · intro _ _
    exact sendMessage_persistInv s (trimStr i) e hA hB

theorem runLoop_persistInv (trace : List (Str × Env)) (s : LoopState)
    (hs : ∀ p ∈ trace, (p.2).saveOkA = true ∧ (p.2).saveOkB = true ∧
      toLowerStr (trimStr p.1) ≠ "/history".toList)
    (hinv : persistInvP s.store s.hist) :
    persistInvP (runLoop s trace).store (runLoop s trace).hist := by
  induction trace generalizing s with
  | nil => exact hinv
  | cons p rest ih =>
    obtain ⟨i, e⟩ := p
    obtain ⟨hA, hB, hnh⟩ := hs (i, e) (List.mem_cons_self _ _)
    simp only [runLoop]
    split
    · exact hinv
    · exact ih (step s i e) (fun q hq => hs q (List.mem_cons_of_mem _ hq))
        (step_persistInv s i e hnh hA hB hinv)

/-! ## The role/attachment invariant -/

/-- Only user-role messages can carry the attachment flag. -/
def rolesOk (h : ChatHistory) : Prop :=
  ∀ m ∈ h.messages, m.has_attachment = true → m.role = "user".toList

theorem rolesOk_add (h : ChatHistory) (ts : Nat) (r c : Str) (b : Bool)
    (hr : b = true → r = "user".toList) (hinv : rolesOk h) :
    rolesOk (h.add_message ts r c b) := by
  intro m hm hatt
  simp only [ChatHistory.add_message] at hm
  rcases List.mem_append.mp hm with hm | hm
  · exact hinv m hm hatt
  · rcases List.mem_singleton.mp hm with rfl
    exact hr hatt

theorem sendMessage_rolesOk (s : LoopState) (u : Str) (e : Env)
    (hinv : rolesOk s.hist) : rolesOk (sendMessage s u e).hist := by
  have h1 : rolesOk
      (s.hist.add_message e.tsA "user".toList u s.attached_file.isSome) :=
    rolesOk_add _ _ _ _ _ (fun _ => rfl) hinv
  cases hg : e.genResult with
  | ok t =>
    have h2 := rolesOk_add _ e.tsB "assistant".toList t false
      (fun h => absurd h (by simp)) h1
    simp only [sendMessage, hg]
    split <;> exact h2
  | err m =>
    have h2 := rolesOk_add _ e.tsB "system".toList ("Error: ".toList ++ m) false
      (fun h => absurd h (by simp)) h1
    simp only [sendMessage, hg]
    exact h2
  | interrupt =>
    simp only [sendMessage, hg]
    exact h1

theorem step_rolesOk (s : LoopState) (i : Str) (e : Env) (hinv : rolesOk s.hist) :
    rolesOk (step s i e).hist := by
  refine step_cases s i e (fun s2 => rolesOk s2.hist) hinv ?_ ?_ ?_ ?_ ?_
  · intro m; exact hinv
  · intro _; exact hinv
  · intro _ _; exact hinv
  · intro msg
    exact rolesOk_add _ _ _ _ _ (fun h => absurd h (by simp)) hinv
  · intro _ _; exact sendMessage_rolesOk s (trimStr i) e hinv

theorem runLoop_rolesOk (trace : List (Str × Env)) (s : LoopState)
    (hinv : rolesOk s.hist) : rolesOk (runLoop s trace).hist := by
  induction trace generalizing s with
  | nil => exact hinv
  | cons p rest ih =>
    obtain ⟨i, e⟩ := p
    simp only [runLoop]
    split
    · exact hinv
    · exact ih (step s i e) (step_rolesOk s i e hinv)

/-! ## Concrete fixtures for witnesses and counterexamples -/

/-- A default environment: both disk writes succeed, the model replies
"hi", all sub-prompt answers empty. -/
def envBase : Env :=
  { tsA := 0, tsB := 1, saveOkA := true, saveOkB := true,
    modelChoice := [], histChoice := [], histDeleteIdx := [],
    histConfirmDel := [], histConfirmAll := [],
    filePathInput := [], fileExists := false, fileIsFile := false,
    fileSuffix := [], fileName := [], fileContConfirm := [],
    uploadResult := UploadOutcome.err [], genResult := GenOutcome.ok "hi".toList }

/-- A freshly created session over an empty history directory. -/
def stateBase : LoopState :=
  initLoopState [] "chat_20250101_120000.json".toList
    "2025-01-01T12:00:00".toList "gemini-2.5-pro".toList true

/-- A history directory with one corrupt chat file, one non-chat file and one
well-formed chat file. -/
def c8store : Store :=
  [("chat_20240101_000000.json".toList, FileContent.corrupt),
   ("notes.txt".toList, FileContent.corrupt),
   ("chat_20250101_120000.json".toList,
     FileContent.good ⟨⟨"2025".toList, some "m".toList, 1⟩,
       [⟨0, "user".toList, "hi".toList, false⟩]⟩)]

/-! ## More structural lemmas -/

theorem select_file_none (p : Str) (fe fi : Bool) (sfx nm cc : Str)
    (hbad : fe = false ∨ fi = false) :
    select_file p fe fi sfx nm cc = none := by
  rcases hbad with rfl | rfl <;> simp [select_file]

theorem step_file_abort (s : LoopState) (i : Str) (e : Env)
    (hin : toLowerStr (trimStr i) = "/file".toList)
    (hsel : select_file e.filePathInput e.fileExists e.fileIsFile
      e.fileSuffix e.fileName e.fileContConfirm = none) :
    step s i e = s := by
  have h0 : trimStr i ≠ [] := by
    intro h
    rw [h] at hin
    exact absurd hin (by decide)
  simp only [step]
  rw [if_neg h0, hin]
  rw [if_neg (show ¬ ("/file".toList = "/quit".toList) by decide)]
  rw [if_neg (show ¬ ("/file".toList = "/clear".toList) by decide)]
  rw [if_neg (show ¬ ("/file".toList = "/help".toList) by decide)]
  rw [if_neg (show ¬ ("/file".toList = "/model".toList) by decide)]
  rw [if_neg (show ¬ ("/file".toList = "/history".toList) by decide)]
  rw [if_neg (show ¬ ("/file".toList = "/export".toList) by decide)]
  rw [if_pos rfl, hsel]

/-! ## Claims -/

/-- C1, as stated, is false on the code: when the model-boundary call raises,
the `except` handler (main.py lines 498-500) appends a system message but
never clears `attached_file`.  Concretely: with an attachment staged and a
failing model call, the staged attachment is still present after the send
attempt. -/
theorem C1_counterexample :
    (step { stateBase with attached_file := some "files/abc123".toList,
                           attached_file_name := some "photo.png".toList }
        "describe this".toList
        { envBase with
            genResult := GenOutcome.err "network error".toList }).attached_file
      ≠ none := by decide

/-- C1 (amended): for a plain send, the staged attachment is cleared exactly
when the model-boundary call succeeds; on an exception (or interrupt) it is
left staged (main.py lines 490-493 run only after a successful reply). -/
theorem C1_amended (s : LoopState) (i : Str) (e : Env)
    (h1 : trimStr i ≠ []) (h2 : toLowerStr (trimStr i) ∉ COMMANDS) :
    (step s i e).attached_file =
      match e.genResult with
      | GenOutcome.ok _ => none
      | GenOutcome.err _ => s.attached_file
      | GenOutcome.interrupt => s.attached_file := by
  rw [step_plain s i e h1 h2]
  exact sendMessage_attached s (trimStr i) e

theorem C1_amended_witness :
    (step { stateBase with attached_file := some "f1".toList }
        "hello".toList
        { envBase with genResult := GenOutcome.err "boom".toList }).attached_file
      = some "f1".toList := by
  rw [C1_amended _ _ _ (by decide) (by decide)]

/-- C2: for every plain send, the user message — with `has_attachment`
truthfully recording whether an attachment is staged — is appended to the
transcript directly after the existing messages, and it is present in the
transcript for every outcome of the model-boundary call (success, exception,
or interrupt), because the append (main.py line 473) precedes the call
(line 477). -/
theorem C2_user_message_persisted (s : LoopState) (i : Str) (e : Env)
    (h1 : trimStr i ≠ []) (h2 : toLowerStr (trimStr i) ∉ COMMANDS) :
    ∃ rest, (step s i e).hist.messages =
      s.hist.messages ++
        Message.mk e.tsA "user".toList (trimStr i) s.attached_file.isSome ::
          rest := by
  rw [step_plain s i e h1 h2]
  exact ⟨_, sendMessage_messages s (trimStr i) e⟩

theorem C2_witness :
    ∃ rest, (step stateBase "hello".toList
        { envBase with genResult := GenOutcome.err "boom".toList }).hist.messages =
      stateBase.hist.messages ++
        Message.mk 0 "user".toList "hello".toList false :: rest := by
  exact C2_user_message_persisted stateBase "hello".toList
    { envBase with genResult := GenOutcome.err "boom".toList }
    (by decide) (by decide)

/-- C5, as stated, is false on the code: the input line is stripped once
(`input(...).strip()`, main.py line 424) and that stripped text — not the
full raw line — is what is sent and recorded.  Concretely, sending
"  Hello  " records content "Hello". -/
theorem C5_counterexample :
    (step stateBase "  Hello  ".toList envBase).hist.messages.map
        Message.content = ["Hello".toList, "hi".toList] ∧
    "Hello".toList ≠ "  Hello  ".toList := by decide

/-- C5 (amended): for a plain send, the content sent and recorded is the
trimmed input line with its original case (case-folding is applied only to
the copy used for command matching, main.py line 429). -/
theorem C5_amended (s : LoopState) (i : Str) (e : Env)
    (h1 : trimStr i ≠ []) (h2 : toLowerStr (trimStr i) ∉ COMMANDS) :
    (step s i e).hist.messages[s.hist.messages.length]? =
      some (Message.mk e.tsA "user".toList (trimStr i)
        s.attached_file.isSome) ∧
    outboundContents s (trimStr i) =
      (match s.attached_file with
       | some f => [f]
       | none => []) ++ [trimStr i] := by
  constructor
  · rw [step_plain s i e h1 h2, sendMessage_messages]
    rw [List.getElem?_append_right (le_refl _)]
    simp
  · rfl

theorem C5_amended_witness :
    (step stateBase "  Hello  ".toList envBase).hist.messages[(0 : Nat)]? =
      some (Message.mk 0 "user".toList "Hello".toList false) ∧
    outboundContents stateBase "Hello".toList = ["Hello".toList] := by
  exact C5_amended stateBase "  Hello  ".toList envBase (by decide) (by decide)

/-- C7: a `/file` invocation whose path does not exist or is not a regular
file returns to the prompt leaving the attachment state unchanged and the
transcript untouched (`select_file` returns `None` before any upload,
main.py lines 362-368; the dispatcher then skips staging, lines 461-466). -/
theorem C7_file_abort_frame (s : LoopState) (i : Str) (e : Env)
    (hin : toLowerStr (trimStr i) = "/file".toList)
    (hbad : e.fileExists = false ∨ e.fileIsFile = false) :
    (step s i e).attached_file = s.attached_file ∧
    (step s i e).attached_file_name = s.attached_file_name ∧
    (step s i e).hist.messages = s.hist.messages := by
  rw [step_file_abort s i e hin
    (select_file_none e.filePathInput e.fileExists e.fileIsFile
      e.fileSuffix e.fileName e.fileContConfirm hbad)]
  exact ⟨rfl, rfl, rfl⟩

theorem C7_witness :
    (step stateBase "/file".toList envBase).attached_file =
      stateBase.attached_file ∧
    (step stateBase "/file".toList envBase).attached_file_name =
      stateBase.attached_file_name ∧
    (step stateBase "/file".toList envBase).hist.messages =
      stateBase.hist.messages := by
  exact C7_file_abort_frame stateBase "/file".toList envBase (by decide)
    (Or.inl (by decide))

theorem appendRun_spec : ∀ (specs : List MsgSpec) (st : Store) (h : ChatHistory),
    lookupStore st h.session_file = some (FileContent.good h.saveData) →
    h.metadata.message_count = h.messages.length →
    (appendRun (st, h) specs).2.messages = h.messages ++ specs.map mkMessage ∧
    (appendRun (st, h) specs).2.session_file = h.session_file ∧
    (appendRun (st, h) specs).2.metadata.created = h.metadata.created ∧
    (appendRun (st, h) specs).2.metadata.model = h.metadata.model ∧
    (appendRun (st, h) specs).2.metadata.message_count =
      (appendRun (st, h) specs).2.messages.length ∧
    lookupStore (appendRun (st, h) specs).1 h.session_file =
      some (FileContent.good (appendRun (st, h) specs).2.saveData)
  | [], st, h, hst, hc => by
    exact ⟨by simp [appendRun], rfl, rfl, rfl, hc, hst⟩
  | x :: rest, st, h, hst, hc => by
    have hst' : lookupStore
        (saveStore st (h.add_message x.1 x.2.1 x.2.2.1 x.2.2.2) true)
        (h.add_message x.1 x.2.1 x.2.2.1 x.2.2.2).session_file =
        some (FileContent.good
          (h.add_message x.1 x.2.1 x.2.2.1 x.2.2.2).saveData) :=
      lookup_saveStore_self _ _
    obtain ⟨m1, m2, m3, m4, m5, m6⟩ := appendRun_spec rest _ _ hst' rfl
    simp only [appendRun]
    refine ⟨?_, ?_, ?_, ?_, ?_, ?_⟩
    · rw [m1]
      simp [ChatHistory.add_message, mkMessage]
    · rw [m2]; rfl
    · rw [m3]; rfl
    · rw [m4]; rfl
    · exact m5
    · exact m6

/-- C3: for every sequence of loop iterations from a fresh session (over any
prior directory whose record under the session's file name — if any —
already satisfies the invariant), every well-formed record found under the
session's file name satisfies `metadata.message_count == len(messages)`:
`add_message` recomputes the count before every `_save` (main.py lines
101-103), so every successful persist writes a record with matching count. -/
theorem C3_message_count_invariant (store0 : Store) (sf created m : Str)
    (sOk : Bool) (trace : List (Str × Env)) (d : SessionData)
    (h0 : ∀ d0, lookupStore store0 sf = some (FileContent.good d0) →
      d0.metadata.message_count = d0.messages.length)
    (hd : lookupStore
        (runLoop (initLoopState store0 sf created m sOk) trace).store sf =
      some (FileContent.good d)) :
    d.metadata.message_count = d.messages.length := by
  have hinit : countInvP (initLoopState store0 sf created m sOk).store
      (initLoopState store0 sf created m sOk).hist :=
    countInvP_save store0 (ChatHistory.init sf created) _ sOk rfl rfl ⟨rfl, h0⟩
  have hfin := runLoop_countInv trace _ hinit
  have hsf : (runLoop (initLoopState store0 sf created m sOk) trace).hist.session_file
      = sf := by
    rw [runLoop_session_file]
    exact rfl
  exact hfin.2 d (by rw [hsf]; exact hd)

def c3record : SessionData :=
  ⟨⟨"2025-01-01T12:00:00".toList, some "gemini-2.5-pro".toList, 2⟩,
   [⟨0, "user".toList, "hi".toList, false⟩,
    ⟨1, "assistant".toList, "hi".toList, false⟩]⟩

theorem C3_witness : c3record.metadata.message_count =
    c3record.messages.length := by
  exact C3_message_count_invariant [] "chat_20250101_120000.json".toList
    "2025-01-01T12:00:00".toList "gemini-2.5-pro".toList true
    [("hi".toList, envBase)] c3record
    (fun d0 hd0 => by exact absurd hd0 (by simp [lookupStore]))
    (by decide)

/-- C4: loading the session's persisted record after N appends (each with a
successful `_save`) on a freshly created session reproduces exactly the N
appended messages, in order, with identical timestamp, role, content and
`has_attachment` — and the persisted metadata carries the matching count. -/
theorem C4_roundtrip (store0 : Store) (sf created m : Str)
    (specs : List MsgSpec) :
    ChatHistory.load_session
      (appendRun (ChatHistory.create store0 sf created m true) specs).1 sf =
      some ⟨⟨created, some m, (specs.map mkMessage).length⟩,
            specs.map mkMessage⟩ := by
  have hpair : ChatHistory.create store0 sf created m true =
      (saveStore store0 ((ChatHistory.init sf created).set_model m) true,
       (ChatHistory.init sf created).set_model m) := rfl
  rw [hpair]
  obtain ⟨m1, m2, m3, m4, m5, m6⟩ :=
    appendRun_spec specs
      (saveStore store0 ((ChatHistory.init sf created).set_model m) true)
      ((ChatHistory.init sf created).set_model m)
      (lookup_saveStore_self store0 ((ChatHistory.init sf created).set_model m))
      rfl
  rcases hA : appendRun
      (saveStore store0 ((ChatHistory.init sf created).set_model m) true,
       (ChatHistory.init sf created).set_model m) specs with ⟨stF, hF⟩
  rw [hA] at m1 m2 m3 m4 m5 m6
  obtain ⟨msgsF, sfF, crF, moF, ctF⟩ := hF
  simp only [ChatHistory.set_model, ChatHistory.init] at m1 m2 m3 m4 m5 m6
  simp only [List.nil_append] at m1
  subst m1
  subst m2
  subst m3
  subst m4
  subst m5
  simp only [ChatHistory.load_session, ChatHistory.saveData] at m6 ⊢
  rw [m6]

/-- C6: creating a session — `ChatHistory()` immediately followed by
`set_model` (main.py lines 414-415), realising the spec's `create(model)` —
allocates an empty message list and persists an initial record (empty
messages, count 0) under the session's file before any message is appended
or any further operation runs. -/
theorem C6_create_persists_initial_record (store0 : Store)
    (sf created m : Str) :
    (ChatHistory.create store0 sf created m true).2.messages = [] ∧
    lookupStore (ChatHistory.create store0 sf created m true).1 sf =
      some (FileContent.good ⟨⟨created, some m, 0⟩, []⟩) := by
  exact ⟨rfl,
    lookup_saveStore_self store0 ((ChatHistory.init sf created).set_model m)⟩

/-- C8: `list_sessions` enumerates exactly the files matching `chat_*.json`,
in descending (newest-first) name order; for fixed-width filename-encoded
timestamps the name order is the timestamp order; and `view_history`'s
listing over those files skips exactly the records whose load fails, keeping
the rest in order (a corrupt file is logged and skipped, never fatal). -/
theorem C8_listing_order_and_skip (st : Store) (n t1 t2 : Str)
    (hlen : t1.length = t2.length) :
    (ChatHistory.list_sessions st).Pairwise (fun a b => strLe b a = true) ∧
    (n ∈ ChatHistory.list_sessions st ↔
      isChatJson n = true ∧ n ∈ st.map Prod.fst) ∧
    view_history_listing st =
      ((ChatHistory.list_sessions st).take 10).filterMap
        (fun p => (ChatHistory.load_session st p).map sessionSummary) ∧
    strLt (chatFileName t1) (chatFileName t2) = strLt t1 t2 := by
  refine ⟨sorted_sortDesc _, ?_, ?_, chatFileName_lt t1 t2 hlen⟩
  · unfold ChatHistory.list_sessions
    rw [mem_sortDesc, List.mem_filter]
    exact and_comm
  · unfold view_history_listing
    generalize (ChatHistory.list_sessions st).take 10 = l
    induction l with
    | nil => rfl
    | cons a l ih =>
      simp only [List.foldr_cons, List.filterMap_cons, ih]
      cases hga : ChatHistory.load_session st a <;> simp [hga]

theorem C8_witness :
    (ChatHistory.list_sessions c8store).Pairwise
      (fun a b => strLe b a = true) ∧
    ("chat_20250101_120000.json".toList ∈ ChatHistory.list_sessions c8store ↔
      isChatJson "chat_20250101_120000.json".toList = true ∧
      "chat_20250101_120000.json".toList ∈ c8store.map Prod.fst) ∧
    view_history_listing c8store =
      ((ChatHistory.list_sessions c8store).take 10).filterMap
        (fun p => (ChatHistory.load_session c8store p).map sessionSummary) ∧
    strLt (chatFileName "20250101_120000".toList)
        (chatFileName "20250202_120000".toList) =
      strLt "20250101_120000".toList "20250202_120000".toList := by
  exact C8_listing_order_and_skip c8store "chat_20250101_120000.json".toList
    "20250101_120000".toList "20250202_120000".toList (by decide)

/-- C9, as stated, is false on the code: the History Browser can delete the
running session's own record (its file matches the `chat_*.json` glob), and
nothing re-persists it before `/quit`.  Concretely: create a session (initial
persist succeeds), use `/history` → `d` → session 1 → `y`, then quit — no
persisted record for the session exists, even though every persist
succeeded. -/
theorem C9_counterexample :
    lookupStore
      (runLoop (initLoopState [] "chat_20250101_120000.json".toList
          "2025-01-01T12:00:00".toList "m".toList true)
        [("/history".toList,
          { envBase with histChoice := "d".toList, histDeleteIdx := "1".toList,
                         histConfirmDel := "y".toList })]).store
      "chat_20250101_120000.json".toList = none := by decide

/-- C9 (amended): provided the preceding persists succeeded and the session's
record was not deleted via the History Browser (no `/history` command was
issued), the state in which `/quit` is entered carries a persisted record
that is exactly the in-memory record, so its `message_count` equals the
in-memory message count at the moment of quitting. -/
theorem C9_quit_record_matches (store0 : Store) (sf created m : Str)
    (trace : List (Str × Env))
    (hs : ∀ p ∈ trace, (p.2).saveOkA = true ∧ (p.2).saveOkB = true ∧
      toLowerStr (trimStr p.1) ≠ "/history".toList) :
    lookupStore (runLoop (initLoopState store0 sf created m true) trace).store
        sf =
      some (FileContent.good
        (runLoop (initLoopState store0 sf created m true) trace).hist.saveData) ∧
    (runLoop (initLoopState store0 sf created m true)
        trace).hist.saveData.metadata.message_count =
      (runLoop (initLoopState store0 sf created m true)
        trace).hist.messages.length := by
  have hinit : persistInvP (initLoopState store0 sf created m true).store
      (initLoopState store0 sf created m true).hist :=
    lookup_saveStore_self store0 ((ChatHistory.init sf created).set_model m)
  have hp := runLoop_persistInv trace _ hs hinit
  have hc0 : countInvP (initLoopState store0 sf created m true).store
      (initLoopState store0 sf created m true).hist := by
    refine ⟨rfl, fun d hd => ?_⟩
    have hself := lookup_saveStore_self store0
      ((ChatHistory.init sf created).set_model m)
    have hd2 : lookupStore
        (saveStore store0 ((ChatHistory.init sf created).set_model m) true)
        ((ChatHistory.init sf created).set_model m).session_file =
        some (FileContent.good d) := hd
    rw [hself] at hd2
    injection hd2 with hd3
    injection hd3 with hd4
    rw [← hd4]
    rfl
  have hfin := runLoop_countInv trace _ hc0
  have hsf : (runLoop (initLoopState store0 sf created m true)
      trace).hist.session_file = sf := by
    rw [runLoop_session_file]
    exact rfl
  refine ⟨?_, hfin.1⟩
  unfold persistInvP at hp
  rw [hsf] at hp
  exact hp

theorem C9_amended_witness :
    lookupStore (runLoop (initLoopState [] "chat_20250101_120000.json".toList
        "2025-01-01T12:00:00".toList "gemini-2.5-pro".toList true)
        [("hi".toList, envBase)]).store "chat_20250101_120000.json".toList =
      some (FileContent.good
        (runLoop (initLoopState [] "chat_20250101_120000.json".toList
          "2025-01-01T12:00:00".toList "gemini-2.5-pro".toList true)
          [("hi".toList, envBase)]).hist.saveData) ∧
    (runLoop (initLoopState [] "chat_20250101_120000.json".toList
        "2025-01-01T12:00:00".toList "gemini-2.5-pro".toList true)
        [("hi".toList, envBase)]).hist.saveData.metadata.message_count =
      (runLoop (initLoopState [] "chat_20250101_120000.json".toList
        "2025-01-01T12:00:00".toList "gemini-2.5-pro".toList true)
        [("hi".toList, envBase)]).hist.messages.length := by
  exact C9_quit_record_matches [] "chat_20250101_120000.json".toList
    "2025-01-01T12:00:00".toList "gemini-2.5-pro".toList
    [("hi".toList, envBase)] (by decide)

/-- C10: in every state reachable by the loop from a fresh session, every
transcript message with role `assistant` or `system` has
`has_attachment = false`: `add_message` defaults the flag to `False`
(main.py line 94) and only the user-message append site (line 473) passes a
non-default value. -/
theorem C10_flag_only_on_user (store0 : Store) (sf created m : Str)
    (sOk : Bool) (trace : List (Str × Env)) (msg : Message)
    (hmem : msg ∈ (runLoop (initLoopState store0 sf created m sOk)
      trace).hist.messages)
    (hrole : msg.role = "assistant".toList ∨ msg.role = "system".toList) :
    msg.has_attachment = false := by
  have h0 : rolesOk (initLoopState store0 sf created m sOk).hist := by
    intro mm hmm _
    exact absurd hmm (List.not_mem_nil mm)
  have hfin := runLoop_rolesOk trace _ h0
  cases hb : msg.has_attachment with
  | false => rfl
  | true =>
    have hu := hfin msg hmem hb
    rcases hrole with h | h <;> rw [h] at hu <;> exact absurd hu (by decide)

theorem C10_witness :
    (⟨1, "assistant".toList, "hi".toList, false⟩ : Message).has_attachment
      = false := by
  exact C10_flag_only_on_user [] "chat_20250101_120000.json".toList
    "2025-01-01T12:00:00".toList "gemini-2.5-pro".toList true
    [("hi".toList, envBase)]
    ⟨1, "assistant".toList, "hi".toList, false⟩
    (by decide) (Or.inl rfl)
